import Mathlib

/-
Shallow embedding of the client-side form validation engine of the
music-connectz-frontend repository (src/public/js/validation.js, class
ValidationManager), together with theorems checking the specification
claims about it.

Modeling conventions:
- A JS string is modeled as a Lean String (a sequence of Unicode scalar
  values); the JS length property is modeled as the scalar count, which
  agrees with JS for strings without astral characters.
- Host primitives that live in the browser runtime rather than in this
  repository (document.getElementById, the Date and URL parsers, float
  parsing and printing) are parameters of the model, collected in JsEnv.
- A fallible JS computation that yields NaN or undefined is modeled with
  Option (none standing for NaN or for a missing value).
- The extra trailing argument that validateField passes to each validator
  (the DOM element of the field) is modeled by the JsArg type: a validator
  argument is either one of the declared string parameters or the element.
- Property lookup on an object literal is modeled in two layers: a plain
  map over the own keys, and a refined lookup that also reaches the
  inherited Object.prototype members (protoFailMembers and
  protoThrowMembers), which are truthy and therefore escape the
  falsiness tests the source uses to skip unknown names.
-/

namespace MusicConnectz

/-- Result of evaluating one rule against one value, as in the source:
objects of shape with a valid flag and a message string. The source
sometimes returns an object without a message field when valid; this is
modeled as the empty message, which is never read on the valid path. -/
structure ValidationResult where
  valid : Bool
  message : String
deriving DecidableEq

/-- One positional argument of a validator call. The source calls
validator.call(this, value, ...params, field): after the value come the
declared string parameters and then the DOM element of the field. -/
inductive JsArg where
  | str : String → JsArg
  | element : JsArg
deriving DecidableEq

/-- The browser-runtime services the engine consumes. dom models
document.getElementById composed with reading the value property of the
found element (none when no element has the id). fieldStr is the string
coercion of the field DOM element. parseDate and fmtDate model the Date
constructor on strings (none for an invalid date) and toLocaleDateString.
parseURLOk models whether the URL constructor succeeds. parseFloatJs and
numToStr model float parsing and number-to-string printing, which are
runtime primitives outside this repository. -/
structure JsEnv where
  dom : String → Option String
  fieldStr : String
  parseURLOk : String → Bool
  parseDate : String → Option Int
  fmtDate : Int → String
  parseFloatJs : String → Option Rat
  numToStr : Rat → String

/-- Whitespace recognized by the model for the JS trim and the regex
whitespace class (the ASCII cases plus NBSP and BOM). -/
def isJsWhitespace (c : Char) : Bool :=
  c = ' ' || c = '\t' || c = '\n' || c = '\r' ||
  c = Char.ofNat 11 || c = Char.ofNat 12 ||
  c = Char.ofNat 0xA0 || c = Char.ofNat 0xFEFF

/-- Model of the JS String.prototype.trim. -/
def jsTrim (s : String) : String :=
  (((s.data.dropWhile isJsWhitespace).reverse.dropWhile isJsWhitespace).reverse).asString

/-- Splitting a character list on a separator; mirrors the JS
String.prototype.split with a one-character separator. The result is
always nonempty, and splitting the empty string gives one empty piece,
as in JS. -/
def splitCharList (sep : Char) : List Char → List (List Char)
  | [] => [[]]
  | c :: r =>
    let rest := splitCharList sep r
    if c = sep then [] :: rest
    else
      match rest with
      | [] => [[c]]
      | h :: t => (c :: h) :: t

/-- Model of the JS String.prototype.split with a one-character separator. -/
def jsSplit (sep : Char) (s : String) : List String :=
  (splitCharList sep s.data).map List.asString

/-- Value of a digit character in bases up to 16, none otherwise. -/
def digVal (c : Char) : Option Nat :=
  if '0' ≤ c ∧ c ≤ '9' then some (c.toNat - '0'.toNat)
  else if 'a' ≤ c ∧ c ≤ 'f' then some (c.toNat - 'a'.toNat + 10)
  else if 'A' ≤ c ∧ c ≤ 'F' then some (c.toNat - 'A'.toNat + 10)
  else none

/-- Accumulate the leading digits of the given base, stopping at the first
non-digit, as JS parseInt does with trailing garbage. -/
def digitsAux (base : Nat) (acc : Nat) : List Char → Nat
  | [] => acc
  | c :: r =>
    match digVal c with
    | some v => if v < base then digitsAux base (base * acc + v) r else acc
    | none => acc

/-- Whether the list starts with at least one digit of the base. -/
def startsWithDigit (base : Nat) : List Char → Bool
  | [] => false
  | c :: _ =>
    match digVal c with
    | some v => v < base
    | none => false

/-- Model of the JS parseInt with no radix argument: skip leading
whitespace, optional sign, an optional 0x or 0X hex prefix, then the
longest prefix of digits; none models NaN (no digits at all). JS returns
a float and loses precision above 2 to the 53; the model is exact, which
agrees on all inputs the engine meets. -/
def parseIntJS (s : String) : Option Int :=
  let cs := s.data.dropWhile isJsWhitespace
  let signed : Bool × List Char :=
    match cs with
    | '-' :: r => (true, r)
    | '+' :: r => (false, r)
    | _ => (false, cs)
  let based : Nat × List Char :=
    match signed.2 with
    | '0' :: 'x' :: r => (16, r)
    | '0' :: 'X' :: r => (16, r)
    | _ => (10, signed.2)
  if startsWithDigit based.1 based.2 then
    let n := digitsAux based.1 0 based.2
    some (if signed.1 then -(n : Int) else (n : Int))
  else none

/-- String coercion of a validator argument. -/
def jsArgString (env : JsEnv) : JsArg → String
  | .str s => s
  | .element => env.fieldStr

/-- String coercion of an optional validator argument; a missing JS
argument is undefined, which coerces to the literal string undefined
(as parseInt and getElementById would see it). -/
def argStr (env : JsEnv) : Option JsArg → String
  | none => "undefined"
  | some a => jsArgString env a

/-- JS truthiness of an optional validator argument: undefined and the
empty string are falsy, any other string and any DOM element are truthy. -/
def argTruthy : Option JsArg → Bool
  | none => false
  | some (.str s) => !(s == "")
  | some .element => true

/-- The email regex of the source anchored at both ends: one or more
characters that are neither whitespace nor the at sign, an at sign, one
or more such characters, a dot, and one or more such characters. A value
matches exactly when it has a single at sign, a nonempty whitespace-free
local part, and a whitespace-free domain containing a dot that is neither
its first nor its last character. -/
def emailFormatOk (value : String) : Bool :=
  match splitCharList '@' value.data with
  | [lpart, dpart] =>
    !lpart.isEmpty && lpart.all (fun c => !isJsWhitespace c) &&
    !dpart.isEmpty && dpart.all (fun c => !isJsWhitespace c) &&
    (dpart.tail.dropLast).contains '.'
  | _ => false

/-- validateEmail from the source: empty passes, otherwise the regex. -/
def validateEmail (value : String) : ValidationResult :=
  if value = "" then ⟨true, ""⟩
  else
    let ok := emailFormatOk value
    ⟨ok, if ok then "" else "Please enter a valid email address"⟩

/-- validatePhone from the source: strip non-digits, require 10 to 15. -/
def validatePhone (value : String) : ValidationResult :=
  if value = "" then ⟨true, ""⟩
  else
    let digits := value.data.filter Char.isDigit
    let ok := 10 ≤ digits.length && digits.length ≤ 15
    ⟨ok, if ok then "" else "Please enter a valid phone number"⟩

/-- validateURL from the source: empty passes, otherwise the URL
constructor of the runtime decides. -/
def validateURL (env : JsEnv) (value : String) : ValidationResult :=
  if value = "" then ⟨true, ""⟩
  else if env.parseURLOk value then ⟨true, ""⟩
  else ⟨false, "Please enter a valid URL (e.g., https://example.com)"⟩

/-- validateRequired from the source. The fieldName parameter defaults to
the label This field when the argument is falsy. -/
def validateRequired (env : JsEnv) (value : String) (fieldNameArg : Option JsArg) : ValidationResult :=
  let ok := decide (0 < value.length)
  let fieldName := if argTruthy fieldNameArg then argStr env fieldNameArg else "This field"
  ⟨ok, if ok then "" else fieldName ++ " is required"⟩

/-- validateMinLength from the source: empty passes; otherwise parseInt
the parameter and compare. A NaN parameter makes the comparison false, so
the rule fails, and the message template interpolates NaN. -/
def validateMinLength (env : JsEnv) (value : String) (minLengthArg : Option JsArg) : ValidationResult :=
  if value = "" then ⟨true, ""⟩
  else
    match parseIntJS (argStr env minLengthArg) with
    | some m =>
      if (value.length : Int) ≥ m then ⟨true, ""⟩
      else ⟨false, "Must be at least " ++ toString m ++ " characters"⟩
    | none => ⟨false, "Must be at least NaN characters"⟩

/-- validateMaxLength from the source, symmetric to validateMinLength. -/
def validateMaxLength (env : JsEnv) (value : String) (maxLengthArg : Option JsArg) : ValidationResult :=
  if value = "" then ⟨true, ""⟩
  else
    match parseIntJS (argStr env maxLengthArg) with
    | some m =>
      if (value.length : Int) ≤ m then ⟨true, ""⟩
      else ⟨false, "Must not exceed " ++ toString m ++ " characters"⟩
    | none => ⟨false, "Must not exceed NaN characters"⟩

/-- validateNumber from the source: empty passes; a value that does not
parse as a float fails; then the optional bounds are checked. A bound
argument is checked against undefined (not truthiness); a bound that
parses to NaN makes both comparisons false and is skipped. -/
def validateNumber (env : JsEnv) (value : String) (minArg maxArg : Option JsArg) : ValidationResult :=
  if value = "" then ⟨true, ""⟩
  else
    match env.parseFloatJs value with
    | none => ⟨false, "Please enter a valid number"⟩
    | some num =>
      let maxCheck : ValidationResult :=
        match maxArg with
        | none => ⟨true, ""⟩
        | some a =>
          match env.parseFloatJs (jsArgString env a) with
          | some maxNum =>
            if maxNum < num then ⟨false, "Must not exceed " ++ env.numToStr maxNum⟩
            else ⟨true, ""⟩
          | none => ⟨true, ""⟩
      match minArg with
      | none => maxCheck
      | some a =>
        match env.parseFloatJs (jsArgString env a) with
        | some minNum =>
          if num < minNum then ⟨false, "Must be at least " ++ env.numToStr minNum⟩
          else maxCheck
        | none => maxCheck

/-- validateDate from the source: empty passes; an unparsable value fails;
the optional bounds are guarded by truthiness, and a bound that parses to
an invalid date makes the comparison false and is skipped. -/
def validateDate (env : JsEnv) (value : String) (minDateArg maxDateArg : Option JsArg) : ValidationResult :=
  if value = "" then ⟨true, ""⟩
  else
    match env.parseDate value with
    | none => ⟨false, "Please enter a valid date"⟩
    | some d =>
      let maxCheck : ValidationResult :=
        if argTruthy maxDateArg then
          match env.parseDate (argStr env maxDateArg) with
          | some m =>
            if m < d then ⟨false, "Date must be before " ++ env.fmtDate m⟩
            else ⟨true, ""⟩
          | none => ⟨true, ""⟩
        else ⟨true, ""⟩
      if argTruthy minDateArg then
        match env.parseDate (argStr env minDateArg) with
        | some m =>
          if d < m then ⟨false, "Date must be after " ++ env.fmtDate m⟩
          else maxCheck
        | none => maxCheck
      else maxCheck

/-- Line terminators, which the JS dot and star do not cross. -/
def isLineTerm (c : Char) : Bool :=
  c = '\n' || c = '\r' || c = Char.ofNat 0x2028 || c = Char.ofNat 0x2029

/-- Length of the longest run of non-terminator characters, for the
unanchored weak password pattern (a dot repeated six or more times). -/
def maxRunAux : List Char → Nat → Nat → Nat
  | [], cur, best => max cur best
  | c :: r, cur, best =>
    if isLineTerm c then maxRunAux r 0 (max cur best)
    else maxRunAux r (cur + 1) best

/-- The weak pattern: some six consecutive non-terminator characters. -/
def weakOk (value : String) : Bool :=
  6 ≤ maxRunAux value.data 0 0

/-- The medium pattern, anchored: the whole value is terminator-free, has
length at least eight, and contains a lowercase letter, an uppercase
letter, and a digit. -/
def mediumOk (value : String) : Bool :=
  value.data.all (fun c => !isLineTerm c) &&
  8 ≤ value.length &&
  value.data.any (fun c => 'a' ≤ c && c ≤ 'z') &&
  value.data.any (fun c => 'A' ≤ c && c ≤ 'Z') &&
  value.data.any Char.isDigit

/-- The strong pattern: as medium with length at least twelve and a
special character from the class of the source regex. -/
def strongOk (value : String) : Bool :=
  value.data.all (fun c => !isLineTerm c) &&
  12 ≤ value.length &&
  value.data.any (fun c => 'a' ≤ c && c ≤ 'z') &&
  value.data.any (fun c => 'A' ≤ c && c ≤ 'Z') &&
  value.data.any Char.isDigit &&
  value.data.any (fun c => ['@', '$', '!', '%', '*', '?', '&'].contains c)

/-- A password strength tier of the source: length floor, pattern, and
failure message. -/
structure PasswordTier where
  minLength : Nat
  pattern : String → Bool
  message : String

def weakTier : PasswordTier :=
  ⟨6, weakOk, "Password must be at least 6 characters"⟩

def mediumTier : PasswordTier :=
  ⟨8, mediumOk, "Password must be 8+ characters with uppercase, lowercase, and number"⟩

def strongTier : PasswordTier :=
  ⟨12, strongOk, "Password must be 12+ characters with uppercase, lowercase, number, and special character"⟩

/-- validatePassword from the source over the own keys of the tier
table: empty passes; the tier is looked up by name with medium as the
fallback; the default parameter value medium applies when the argument
is missing. This map-lookup reading is exact for every strength that is
not an inherited Object.prototype property name; the full lookup through
the prototype chain, on which such a strength throws instead of falling
back, is modeled by validatePasswordJs further below. -/
def validatePassword (env : JsEnv) (value : String) (strengthArg : Option JsArg) : ValidationResult :=
  if value = "" then ⟨true, ""⟩
  else
    let strength :=
      match strengthArg with
      | none => "medium"
      | some a => jsArgString env a
    let tier :=
      if strength = "weak" then weakTier
      else if strength = "medium" then mediumTier
      else if strength = "strong" then strongTier
      else mediumTier
    if tier.pattern value then ⟨true, ""⟩ else ⟨false, tier.message⟩

/-- validateMatch from the source: look the target field up by id; a
missing target is reported as a configuration error; otherwise the value
is compared with the current raw value of the target. There is no
empty-value guard in this validator. -/
def validateMatch (env : JsEnv) (value : String) (targetFieldIdArg : Option JsArg) : ValidationResult :=
  match env.dom (argStr env targetFieldIdArg) with
  | none => ⟨false, "Configuration error"⟩
  | some targetValue =>
    if value = targetValue then ⟨true, ""⟩ else ⟨false, "Fields do not match"⟩

/-- The ten keys of the validators registry built in the constructor. -/
def builtinNames : List String :=
  ["email", "phone", "url", "required", "minLength", "maxLength",
   "number", "date", "password", "match"]

/-- Dispatch through the own keys of the validators registry: the call
validator.call(this, value, ...params, field) of validateField, with the
DOM element appended after the declared parameters. none models a name
with no own registry entry. The JS lookup on the registry object literal
also reaches inherited Object.prototype members; that full lookup,
including the names on which the chain fails or throws instead of
skipping, is modeled by applyValidatorJs further below. -/
def applyValidator (env : JsEnv) (name value : String) (params : List String) : Option ValidationResult :=
  let args : List JsArg := params.map JsArg.str ++ [JsArg.element]
  if name = "email" then some (validateEmail value)
  else if name = "phone" then some (validatePhone value)
  else if name = "url" then some (validateURL env value)
  else if name = "required" then some (validateRequired env value args[0]?)
  else if name = "minLength" then some (validateMinLength env value args[0]?)
  else if name = "maxLength" then some (validateMaxLength env value args[0]?)
  else if name = "number" then some (validateNumber env value args[0]? args[1]?)
  else if name = "date" then some (validateDate env value args[0]? args[1]?)
  else if name = "password" then some (validatePassword env value args[0]?)
  else if name = "match" then some (validateMatch env value args[0]?)
  else none

/-- The validator name of a rule token: the part before the first colon.
Splitting always yields a nonempty list, so the default is never used. -/
def ruleName (ruleStr : String) : String :=
  (jsSplit ':' ruleStr).headD ""

/-- The declared parameters of a rule token: the parts after the name. -/
def ruleParams (ruleStr : String) : List String :=
  (jsSplit ':' ruleStr).tail

/-- The rule loop of validateField over the own registry keys: walk the
rules left to right, skip names without an own registry entry, stop at
the first failing result and keep its message; an exhausted chain is
valid with an empty message. This matches the source on every chain
whose rule names and password strengths avoid the inherited
Object.prototype member names; the loop under the full lookup is
evalRulesJs further below. -/
def evalRules (env : JsEnv) (value : String) : List String → Bool × String
  | [] => (true, "")
  | ruleStr :: rest =>
    match applyValidator env (ruleName ruleStr) value (ruleParams ruleStr) with
    | none => evalRules env value rest
    | some result =>
      if result.valid then evalRules env value rest
      else (false, result.message)

/-- validateField from the source, without the UI side effects: split the
declaration on pipes, trim the value, and run the rule loop. The first
component is the returned flag; the second is the surfaced message. -/
def validateField (env : JsEnv) (dataValidate : String) (rawValue : String) : Bool × String :=
  evalRules env (jsTrim rawValue) (jsSplit '|' dataValidate)

/-- A value of the collected form data: a single string or, for repeated
names, an array of strings, as getFormData builds. -/
inductive FormVal where
  | one : String → FormVal
  | many : List String → FormVal
deriving DecidableEq

/-- Replace the value at a key in an association list, keeping positions. -/
def assocSet : List (String × FormVal) → String → FormVal → List (String × FormVal)
  | [], k, v => [(k, v)]
  | (k2, v2) :: rest, k, v =>
    if k2 = k then (k2, v) :: rest else (k2, v2) :: assocSet rest k v

/-- One step of getFormData. The existing entry is tested for truthiness:
a stored empty string is falsy and is overwritten; a stored nonempty
string becomes a two-element array; a stored array (always truthy) is
extended. -/
def addEntry (data : List (String × FormVal)) (key value : String) : List (String × FormVal) :=
  match data.lookup key with
  | some (.one s) =>
    if s = "" then assocSet data key (.one value)
    else assocSet data key (.many [s, value])
  | some (.many l) => assocSet data key (.many (l ++ [value]))
  | none => data ++ [(key, FormVal.one value)]

/-- getFormData from the source, over the FormData entries of the form. -/
def getFormData (entries : List (String × String)) : List (String × FormVal) :=
  entries.foldl (fun data kv => addEntry data kv.1 kv.2) []

/-- One input element carrying a data-validate declaration. -/
structure BoundField where
  dataValidate : String
  rawValue : String

/-- A form at submission time: its bound inputs in document order and its
FormData entries (which may cover further, unbound controls). -/
structure FormModel where
  boundFields : List BoundField
  entries : List (String × String)

/-- Observable outcome of the submit listener installed by initForm:
the evaluation outcome rendered on each bound field, the payload of the
formValid event when it is dispatched, and the index of the field that
receives focus. -/
structure SubmitOutcome where
  fieldResults : List (Bool × String)
  emitted : Option (List (String × FormVal))
  focusIdx : Option Nat

/-- Index of the first invalid result, modeling the querySelector lookup
of the first element with the invalid class after all fields rendered. -/
def firstInvalidIdx : List (Bool × String) → Option Nat
  | [] => none
  | r :: rest =>
    if r.1 then (firstInvalidIdx rest).map (· + 1) else some 0

/-- The submit listener of initForm: every bound field is validated (the
loop has no early exit), then the formValid event fires exactly when all
passed; otherwise nothing is emitted and the first invalid field gets
focus. preventDefault is called unconditionally, so native submission
never proceeds; the event payload is the only success signal. -/
def handleSubmit (env : JsEnv) (form : FormModel) : SubmitOutcome :=
  let results := form.boundFields.map fun f => validateField env f.dataValidate f.rawValue
  if results.all fun r => r.1 then
    { fieldResults := results
      emitted := some (getFormData form.entries)
      focusIdx := none }
  else
    { fieldResults := results
      emitted := none
      focusIdx := firstInvalidIdx results }

/-- A file as validateFile sees it: declared size, MIME type, and name. -/
structure JsFile where
  size : Nat
  type : String
  name : String

/-- Configuration of validateFile; none models a null or undefined
allow-list, which disables the corresponding check by falsiness. -/
structure FileConfig where
  maxSize : Nat
  allowedTypes : Option (List String)
  allowedExtensions : Option (List String)

def defaultAllowedTypes : List String :=
  ["image/jpeg", "image/png", "image/gif", "audio/mpeg", "audio/wav", "video/mp4"]

def defaultAllowedExtensions : List String :=
  [".jpg", ".jpeg", ".png", ".gif", ".mp3", ".wav", ".mp4"]

/-- The defaults object of validateFile. -/
def defaultFileConfig : FileConfig :=
  { maxSize := 10 * 1024 * 1024
    allowedTypes := some defaultAllowedTypes
    allowedExtensions := some defaultAllowedExtensions }

/-- The size interpolation of the failure message: maxSize over two
divisions by 1024, printed with toFixed(0), which rounds to the nearest
integer, half upward. -/
def jsToFixed0MB (maxSize : Nat) : String :=
  toString ((maxSize + 524288) / 1048576)

/-- ASCII lowercasing, for the extension normalization. -/
def lowerAscii (s : String) : String :=
  (s.data.map Char.toLower).asString

/-- The extension computed by validateFile: a dot, then the last
dot-separated piece of the name, lowercased. -/
def fileExtension (name : String) : String :=
  "." ++ lowerAscii ((jsSplit '.' name).getLastD "")

/-- validateFile from the source: size first, then the MIME allow-list,
then the extension allow-list. -/
def validateFile (file : JsFile) (config : FileConfig) : ValidationResult :=
  if file.size > config.maxSize then
    ⟨false, "File size must not exceed " ++ jsToFixed0MB config.maxSize ++ "MB"⟩
  else
    let extCheck : ValidationResult :=
      match config.allowedExtensions with
      | some exts =>
        if exts.contains (fileExtension file.name) then ⟨true, ""⟩
        else ⟨false, "Only " ++ String.intercalate ", " exts ++ " files are allowed"⟩
      | none => ⟨true, ""⟩
    match config.allowedTypes with
    | some types =>
      if types.contains file.type then extCheck
      else ⟨false, "File type not allowed"⟩
    | none => extCheck

/-- A minimal concrete runtime for concrete evaluations: an empty DOM and
trivial host parsers. -/
def env₀ : JsEnv :=
  { dom := fun _ => none
    fieldStr := "[object HTMLInputElement]"
    parseURLOk := fun _ => false
    parseDate := fun _ => none
    fmtDate := fun _ => "Invalid Date"
    parseFloatJs := fun _ => none
    numToStr := fun _ => "NaN" }

/-- The minimal runtime extended with one field of the given id holding
the given raw value. -/
def envWith (id val : String) : JsEnv :=
  { env₀ with dom := fun k => if k = id then some val else none }

/-- Inherited Object.prototype properties that an object-literal lookup
reaches through the prototype chain and whose invocation as a validator
returns a value that is not a result object: the subsequent read of the
valid property yields undefined, which is falsy, so the chain records a
failure with an undefined message. -/
def protoFailMembers : List String :=
  ["constructor", "toString", "toLocaleString", "valueOf",
   "hasOwnProperty", "isPrototypeOf", "propertyIsEnumerable"]

/-- Inherited Object.prototype properties whose use as a validator makes
the evaluation throw a TypeError: the proto accessor yields a non-callable
object (no call method), the define accessors require a callable second
argument, and the lookup accessors return undefined, on which the read of
the valid property throws. -/
def protoThrowMembers : List String :=
  ["__proto__", "__defineGetter__", "__defineSetter__",
   "__lookupGetter__", "__lookupSetter__"]

/-- All inherited Object.prototype property names a lookup can reach:
these are truthy, so the falsiness tests of the source do not filter
them. Any name outside the own keys and this list yields undefined. -/
def objectProtoMembers : List String :=
  protoFailMembers ++ protoThrowMembers

/-- The result of one tier of the password validator: the pattern test
and the tier message on failure. -/
def tierResult (tier : PasswordTier) (value : String) : ValidationResult :=
  if tier.pattern value then ⟨true, ""⟩ else ⟨false, tier.message⟩

/-- A validator outcome that can also be an uncaught TypeError. -/
inductive JsResultOutcome where
  | ok : ValidationResult → JsResultOutcome
  | typeError : JsResultOutcome
deriving DecidableEq

/-- validatePassword under the full tier lookup: the expression looking
the strength up in the tier object literal with a fallback to the medium
entry reaches inherited Object.prototype members through the prototype
chain; such a member is truthy, so the fallback is not taken, the picked
member has no pattern property, and the pattern test call throws a
TypeError. Only a strength that is neither a tier name nor an inherited
member name falls back to medium. -/
def validatePasswordJs (env : JsEnv) (value : String) (strengthArg : Option JsArg) : JsResultOutcome :=
  if value = "" then .ok ⟨true, ""⟩
  else
    let strength :=
      match strengthArg with
      | none => "medium"
      | some a => jsArgString env a
    if strength = "weak" then .ok (tierResult weakTier value)
    else if strength = "medium" then .ok (tierResult mediumTier value)
    else if strength = "strong" then .ok (tierResult strongTier value)
    else if strength ∈ objectProtoMembers then .typeError
    else .ok (tierResult mediumTier value)

/-- Effect of looking one rule up in the registry and invoking it: a
skipped rule (lookup yields undefined), a proper validation result, a
failure with an undefined message (an invoked inherited member returned
a value without a valid property), or an uncaught TypeError. -/
inductive RuleStep where
  | skip : RuleStep
  | result : ValidationResult → RuleStep
  | failUndef : RuleStep
  | typeError : RuleStep
deriving DecidableEq

/-- The registry lookup and call of one rule under the full semantics of
an object-literal lookup, including the prototype chain: an own key
dispatches to its validator method, where the password method performs
the further tier lookup that can itself throw; an inherited
Object.prototype member is truthy, escapes the skip test, and is invoked
with the classification of protoFailMembers and protoThrowMembers; any
other name yields undefined and the rule is skipped. -/
def applyValidatorJs (env : JsEnv) (name value : String) (params : List String) : RuleStep :=
  if name = "password" then
    match validatePasswordJs env value (params.map JsArg.str ++ [JsArg.element])[0]? with
    | .ok r => .result r
    | .typeError => .typeError
  else
    match applyValidator env name value params with
    | some r => .result r
    | none =>
      if name ∈ protoFailMembers then .failUndef
      else if name ∈ protoThrowMembers then .typeError
      else .skip

/-- Outcome of a chain under the full lookup: the returned flag together
with the surfaced message, where none models the undefined message left
by an invoked inherited member, or an uncaught TypeError that aborts the
evaluation. -/
inductive JsChainOutcome where
  | ok : Bool → Option String → JsChainOutcome
  | typeError : JsChainOutcome
deriving DecidableEq

/-- The rule loop of validateField under the full registry lookup; it
agrees with evalRules on every chain whose rule names and password
strengths avoid the inherited Object.prototype member names. -/
def evalRulesJs (env : JsEnv) (value : String) : List String → JsChainOutcome
  | [] => .ok true (some "")
  | ruleStr :: rest =>
    match applyValidatorJs env (ruleName ruleStr) value (ruleParams ruleStr) with
    | .skip => evalRulesJs env value rest
    | .result r =>
      if r.valid then evalRulesJs env value rest
      else .ok false (some r.message)
    | .failUndef => .ok false none
    | .typeError => .typeError

end MusicConnectz

namespace MusicConnectz

/-- A name outside the registry dispatches to no validator. -/
theorem applyValidator_eq_none_of_not_builtin (env : JsEnv) (name value : String)
    (params : List String) (h : name ∉ builtinNames) :
    applyValidator env name value params = none := by
  simp only [builtinNames, List.mem_cons, List.not_mem_nil, or_false, not_or] at h
  obtain ⟨h1, h2, h3, h4, h5, h6, h7, h8, h9, h10⟩ := h
  simp [applyValidator, h1, h2, h3, h4, h5, h6, h7, h8, h9, h10]

/-- Claim C1: for every field value and every ordered rule chain, the
chain evaluator proceeds left to right and stops at the first rule whose
result is invalid; the evaluation reports invalid with exactly the
message of that rule, and the rules after it cannot affect the outcome
(the suffix post is arbitrary and absent from the conclusion). -/
theorem chain_stops_at_first_failing_rule (env : JsEnv) (value : String)
    (pre post : List String) (r : String) (res : ValidationResult)
    (hpre : evalRules env value pre = (true, ""))
    (hr : applyValidator env (ruleName r) value (ruleParams r) = some res)
    (hfail : res.valid = false) :
    evalRules env value (pre ++ r :: post) = (false, res.message) := by
  induction pre with
  | nil =>
    simp [evalRules, hr, hfail]
  | cons a rest ih =>
    rw [List.cons_append]
    cases hap : applyValidator env (ruleName a) value (ruleParams a) with
    | none =>
      simp only [evalRules, hap] at hpre ⊢
      exact ih hpre
    | some x =>
      simp only [evalRules, hap] at hpre ⊢
      cases hx : x.valid with
      | true =>
        simp [hx] at hpre ⊢
        exact ih hpre
      | false =>
        simp [hx] at hpre

/-- Witness for C1: in the chain minLength:2 then maxLength:2 then email
on the value abc, the first rule passes, the second fails, and the chain
reports exactly the maxLength message, ignoring the email rule. -/
theorem chain_stops_at_first_failing_rule_witness :
    evalRules env₀ "abc" (["minLength:2"] ++ "maxLength:2" :: ["email"]) =
      (false, "Must not exceed 2 characters") :=
  chain_stops_at_first_failing_rule env₀ "abc" ["minLength:2"] ["email"]
    "maxLength:2" ⟨false, "Must not exceed 2 characters"⟩
    (by decide) (by decide) (by decide)

/-- Counterexample to claim C3 as stated: the registry lookup reaches
inherited Object.prototype members, so a rule named toString is invoked
rather than skipped: its call returns a value without a valid property,
the chain reports invalid with an undefined message, and removing the
rule changes the outcome; and a rule named after the proto accessor makes
the call throw a TypeError, aborting the evaluation before the rules
after it. Both names are outside the ten builtin names. -/
theorem unknown_rule_inherited_member_counterexample :
    evalRulesJs env₀ "abc" ["minLength:1", "toString"] = .ok false none ∧
    evalRulesJs env₀ "abc" ["minLength:1"] = .ok true (some "") ∧
    evalRulesJs env₀ "abc" ["__proto__", "minLength:1"] = .typeError := by
  decide

/-- Claim C3 amended: a rule whose validator name is neither one of the
ten builtin names nor an inherited Object.prototype property name is
skipped: the chain evaluates to the same outcome as the chain with that
rule removed, and such a rule never makes evaluation fail or abort. -/
theorem unknown_non_proto_rule_skipped (env : JsEnv) (value : String)
    (pre post : List String) (r : String)
    (hb : ruleName r ∉ builtinNames)
    (hp : ruleName r ∉ objectProtoMembers) :
    evalRulesJs env value (pre ++ r :: post) = evalRulesJs env value (pre ++ post) := by
  have hpw : ruleName r ≠ "password" := fun e => hb (by rw [e]; decide)
  rw [objectProtoMembers] at hp
  simp only [List.mem_append, not_or] at hp
  obtain ⟨hpf, hpt⟩ := hp
  have hstep : applyValidatorJs env (ruleName r) value (ruleParams r) = .skip := by
    simp only [applyValidatorJs, if_neg hpw,
      applyValidator_eq_none_of_not_builtin env (ruleName r) value (ruleParams r) hb]
    simp [hpf, hpt]
  induction pre with
  | nil =>
    simp only [List.nil_append, evalRulesJs, hstep]
  | cons a rest ih =>
    rw [List.cons_append, List.cons_append]
    cases hap : applyValidatorJs env (ruleName a) value (ruleParams a) with
    | skip =>
      simp only [evalRulesJs, hap]
      exact ih
    | result x =>
      simp only [evalRulesJs, hap]
      cases hx : x.valid with
      | true =>
        simp only [hx, if_true]
        exact ih
      | false =>
        simp [hx]
    | failUndef =>
      simp only [evalRulesJs, hap]
    | typeError =>
      simp only [evalRulesJs, hap]

/-- Witness for the amended C3: the unknown, non-inherited rule name
fancyRule between two known rules changes nothing about the chain. -/
theorem unknown_non_proto_rule_skipped_witness :
    evalRulesJs env₀ "abc" (["minLength:1"] ++ "fancyRule:3" :: ["maxLength:2"]) =
      evalRulesJs env₀ "abc" (["minLength:1"] ++ ["maxLength:2"]) :=
  unknown_non_proto_rule_skipped env₀ "abc" ["minLength:1"] ["maxLength:2"]
    "fancyRule:3" (by decide) (by decide)

/-- Claim C4: for every value, evaluating the match validator against a
target identifier bound to no field returns a normal failure result with
the distinct configuration-error message; being a total Lean function,
the evaluator always returns a result and never throws. -/
theorem match_missing_target_is_config_error (env : JsEnv) (value tid : String)
    (h : env.dom tid = none) :
    validateMatch env value (some (JsArg.str tid)) = ⟨false, "Configuration error"⟩ := by
  simp [validateMatch, argStr, jsArgString, h]

/-- Witness for C4: in a runtime with an empty DOM, the match validator
reports the configuration error for a concrete value and target. -/
theorem match_missing_target_is_config_error_witness :
    validateMatch env₀ "secret" (some (JsArg.str "confirmPassword")) =
      ⟨false, "Configuration error"⟩ :=
  match_missing_target_is_config_error env₀ "secret" "confirmPassword" rfl

end MusicConnectz

namespace MusicConnectz

/-- Counterexample to claim C2 as stated: the match validator is a
builtin other than required, yet on the empty string, with a target field
currently holding the value x, it returns valid equal to false (the
claim asserts valid equal to true regardless of the target value). The
source validateMatch has no empty-value guard. -/
theorem empty_match_invalid_counterexample :
    applyValidator (envWith "pw" "x") "match" "" ["pw"] =
      some ⟨false, "Fields do not match"⟩ := by
  decide

/-- Claim C2 amended: every builtin validator other than required and
match returns valid on the empty string, for every runtime and every
parameter list; the match validator on the empty string instead compares
the empty string with the current value of the target field, so it is
valid exactly when the target exists and its value is empty. -/
theorem empty_value_valid_except_required_and_match (env : JsEnv)
    (params : List String) (name tid : String)
    (h : name ∈ (["email", "phone", "url", "minLength", "maxLength",
                  "number", "date", "password"] : List String)) :
    applyValidator env name "" params = some ⟨true, ""⟩ ∧
    ((validateMatch env "" (some (JsArg.str tid))).valid = true ↔
      env.dom tid = some "") := by
  constructor
  · simp only [List.mem_cons, List.not_mem_nil, or_false] at h
    rcases h with rfl | rfl | rfl | rfl | rfl | rfl | rfl | rfl <;>
      simp [applyValidator, validateEmail, validatePhone, validateURL,
            validateMinLength, validateMaxLength, validateNumber,
            validateDate, validatePassword]
  · rw [validateMatch]
    cases hd : env.dom (argStr env (some (JsArg.str tid))) with
    | none =>
      simp only [argStr, jsArgString] at hd
      simp [hd]
    | some t =>
      simp only [argStr, jsArgString] at hd
      simp only [hd]
      by_cases ht : ("" : String) = t
      · subst ht
        simp
      · simp [ht, Ne.symm ht]

/-- Witness for the amended C2: the email validator accepts the empty
string, and in a runtime where the target holds a nonempty value the
match validator rejects the empty string. -/
theorem empty_value_valid_except_required_and_match_witness :
    applyValidator (envWith "pw" "x") "email" "" [] = some ⟨true, ""⟩ ∧
    ¬ (validateMatch (envWith "pw" "x") "" (some (JsArg.str "pw"))).valid = true :=
  ⟨(empty_value_valid_except_required_and_match (envWith "pw" "x") [] "email" "pw"
      (by decide)).1,
   fun hv =>
     by
       have h2 := (empty_value_valid_except_required_and_match (envWith "pw" "x")
         [] "email" "pw" (by decide)).2
       have := h2.mp hv
       simp [envWith, env₀] at this⟩

/-- Claim C6: for a nonempty value and a parameter that parses to the
integer n, the minLength validator is valid exactly when the length of
the value is at least n, and on failure carries the message built from
n; the two concrete cases of the spec at minLength 8 follow. -/
theorem minLength_threshold (env : JsEnv) (v p : String) (n : Int)
    (hv : v ≠ "") (hp : parseIntJS p = some n) :
    (validateMinLength env v (some (JsArg.str p)) =
      if (v.length : Int) ≥ n then ⟨true, ""⟩
      else ⟨false, "Must be at least " ++ toString n ++ " characters"⟩) ∧
    validateMinLength env "abcdefg" (some (JsArg.str "8")) =
      ⟨false, "Must be at least 8 characters"⟩ ∧
    validateMinLength env "abcdefgh" (some (JsArg.str "8")) = ⟨true, ""⟩ := by
  refine ⟨?_, ?_, ?_⟩
  · simp [validateMinLength, argStr, jsArgString, hv, hp]
  · simp [validateMinLength, argStr, jsArgString]
    decide
  · simp [validateMinLength, argStr, jsArgString]
    decide

/-- Witness for C6: the concrete seven-character rejection at threshold
eight, obtained from the theorem at a concrete input. -/
theorem minLength_threshold_witness :
    validateMinLength env₀ "abcdefg" (some (JsArg.str "8")) =
      ⟨false, "Must be at least 8 characters"⟩ :=
  (minLength_threshold env₀ "x" "8" 8 (by decide) (by decide)).2.1

/-- Claim C9: for a nonempty value, a minLength or maxLength parameter on
which parseInt yields NaN makes the rule an always-fail rule: the NaN
comparison is false, so the result is invalid with NaN interpolated into
the message. -/
theorem nan_length_param_always_fails (env : JsEnv) (v p : String)
    (hv : v ≠ "") (hp : parseIntJS p = none) :
    validateMinLength env v (some (JsArg.str p)) =
      ⟨false, "Must be at least NaN characters"⟩ ∧
    validateMaxLength env v (some (JsArg.str p)) =
      ⟨false, "Must not exceed NaN characters"⟩ := by
  constructor
  · simp [validateMinLength, argStr, jsArgString, hv, hp]
  · simp [validateMaxLength, argStr, jsArgString, hv, hp]

/-- Witness for C9: the parameter xyz does not parse, and the rule
rejects the nonempty value abc with the NaN message. -/
theorem nan_length_param_always_fails_witness :
    validateMinLength env₀ "abc" (some (JsArg.str "xyz")) =
      ⟨false, "Must be at least NaN characters"⟩ :=
  (nan_length_param_always_fails env₀ "abc" "xyz" (by decide) (by decide)).1

/-- Counterexample to claim C10 as stated: the strength toString is
outside weak, medium, and strong, yet the tier lookup finds the truthy
inherited Object.prototype member, the fallback to medium is not taken,
and the pattern test call throws a TypeError — not the medium-tier
result that the same value receives under the medium strength. -/
theorem password_inherited_strength_counterexample :
    validatePasswordJs env₀ "Abcdefg1" (some (JsArg.str "toString")) = .typeError ∧
    validatePasswordJs env₀ "Abcdefg1" (some (JsArg.str "medium")) = .ok ⟨true, ""⟩ := by
  decide

/-- Claim C10 amended: for a nonempty value, a strength parameter that is
outside weak, medium, and strong and is not an inherited Object.prototype
property name makes the password validator behave exactly as the medium
tier: same result, hence the medium pattern and, on failure, the medium
message; a strength naming an inherited member throws instead. -/
theorem password_non_proto_strength_is_medium (env : JsEnv) (v s : String)
    (hv : v ≠ "")
    (hs : s ∉ (["weak", "medium", "strong"] : List String))
    (hp : s ∉ objectProtoMembers) :
    validatePasswordJs env v (some (JsArg.str s)) =
      validatePasswordJs env v (some (JsArg.str "medium")) := by
  simp only [List.mem_cons, List.not_mem_nil, or_false, not_or] at hs
  obtain ⟨h1, h2, h3⟩ := hs
  simp [validatePasswordJs, jsArgString, hv, h1, h2, h3, hp]

/-- Witness for the amended C10: for the strength name ultra, neither a
tier nor an inherited member, the validator agrees with the medium tier. -/
theorem password_non_proto_strength_is_medium_witness :
    validatePasswordJs env₀ "abcdefg1" (some (JsArg.str "ultra")) =
      validatePasswordJs env₀ "abcdefg1" (some (JsArg.str "medium")) :=
  password_non_proto_strength_is_medium env₀ "abcdefg1" "ultra"
    (by decide) (by decide) (by decide)

end MusicConnectz

namespace MusicConnectz

/-- The first-invalid lookup returns an index holding a failing result
and preceded only by passing results, whenever some result fails. -/
theorem firstInvalidIdx_spec (l : List (Bool × String))
    (h : l.all (fun r => r.1) = false) :
    ∃ i, firstInvalidIdx l = some i ∧
      (∃ res, l[i]? = some res ∧ res.1 = false) ∧
      ∀ j, j < i → ∀ res, l[j]? = some res → res.1 = true := by
  induction l with
  | nil => simp at h
  | cons a rest ih =>
    cases ha : a.1 with
    | false =>
      refine ⟨0, by simp [firstInvalidIdx, ha], ⟨a, by simp, ha⟩, ?_⟩
      intro j hj
      omega
    | true =>
      have h2 : rest.all (fun r => r.1) = false := by
        simpa [List.all_cons, ha] using h
      obtain ⟨i, hi, ⟨res, hres, hresf⟩, hbefore⟩ := ih h2
      refine ⟨i + 1, ?_, ⟨res, ?_, hresf⟩, ?_⟩
      · simp [firstInvalidIdx, ha, hi]
      · simpa using hres
      · intro j hj res2 hres2
        cases j with
        | zero =>
          simp at hres2
          rw [← hres2]
          exact ha
        | succ k =>
          simp only [List.getElem?_cons_succ] at hres2
          exact hbefore k (by omega) res2 hres2

/-- Claim C5: the submit listener evaluates the rule chain of every bound
field (the rendered per-field results are exactly the map of the chain
evaluator over all bound fields, with no short circuit across fields);
the formValid payload with the collected form data is emitted exactly
when all fields pass; otherwise nothing is emitted and focus goes to an
index holding the first invalid field: its result fails and every earlier
index passes. -/
theorem submit_evaluates_all_fields_and_gates (env : JsEnv) (form : FormModel)
    (rs : List (Bool × String))
    (hrs : rs = form.boundFields.map fun f => validateField env f.dataValidate f.rawValue) :
    (handleSubmit env form).fieldResults = rs ∧
    ((handleSubmit env form).emitted = some (getFormData form.entries) ↔
      rs.all (fun r => r.1) = true) ∧
    (rs.all (fun r => r.1) = false →
      (handleSubmit env form).emitted = none ∧
      ∃ i, (handleSubmit env form).focusIdx = some i ∧
        (∃ res, rs[i]? = some res ∧ res.1 = false) ∧
        ∀ j, j < i → ∀ res, rs[j]? = some res → res.1 = true) := by
  subst hrs
  by_cases hall :
    ((form.boundFields.map fun f => validateField env f.dataValidate f.rawValue).all
      fun r => r.1) = true
  · refine ⟨?_, ?_, ?_⟩
    · simp [handleSubmit, hall]
    · simp [handleSubmit, hall]
    · intro hfalse
      rw [hall] at hfalse
      exact absurd hfalse (by simp)
  · have hb : ((form.boundFields.map fun f => validateField env f.dataValidate f.rawValue).all
      fun r => r.1) = false := by
      cases hx : ((form.boundFields.map fun f => validateField env f.dataValidate f.rawValue).all
        fun r => r.1) with
      | false => rfl
      | true => exact absurd hx hall
    refine ⟨?_, ?_, ?_⟩
    · simp [handleSubmit, hb]
    · simp [handleSubmit, hb]
    · intro _
      refine ⟨by simp [handleSubmit, hb], ?_⟩
      obtain ⟨i, hi, hfail, hbefore⟩ := firstInvalidIdx_spec _ hb
      exact ⟨i, by simpa [handleSubmit, hb] using hi, hfail, hbefore⟩

/-- Witness for C5: a three-field form whose middle field fails: nothing
is emitted, and the focus index is defined. -/
theorem submit_evaluates_all_fields_and_gates_witness :
    (handleSubmit env₀
      ⟨[⟨"required:Name", "a"⟩, ⟨"required:Email", ""⟩, ⟨"minLength:1", "ab"⟩],
        [("name", "a")]⟩).emitted = none :=
  (submit_evaluates_all_fields_and_gates env₀
    ⟨[⟨"required:Name", "a"⟩, ⟨"required:Email", ""⟩, ⟨"minLength:1", "ab"⟩],
      [("name", "a")]⟩
    [(true, ""), (false, "Email is required"), (true, "")]
    (by decide)).2.2 (by decide) |>.1

/-- Claim C7: under the default configuration, a file over ten mebibytes
is rejected with a message that contains 10MB; a file within the limit
whose MIME type is outside the allow-list is rejected with the type
message; and a two-mebibyte PNG image with a png extension is accepted. -/
theorem file_validation_default_config (f g : JsFile) :
    (10485760 < f.size →
      validateFile f defaultFileConfig =
        ⟨false, "File size must not exceed 10MB"⟩ ∧
      ∃ before after, "File size must not exceed 10MB" =
        before ++ "10MB" ++ after) ∧
    (g.size ≤ 10485760 → g.type ∉ defaultAllowedTypes →
      validateFile g defaultFileConfig = ⟨false, "File type not allowed"⟩) ∧
    validateFile ⟨2097152, "image/png", "cover.png"⟩ defaultFileConfig =
      ⟨true, ""⟩ := by
  refine ⟨fun h => ⟨?_, "File size must not exceed ", "", by decide⟩,
    fun h1 h2 => ?_, by decide⟩
  · rw [validateFile, if_pos (by simpa [defaultFileConfig] using h)]
    decide
  · rw [validateFile, if_neg (by simp [defaultFileConfig]; omega)]
    simp only [defaultFileConfig]
    simp [h2]

/-- Witness for C7: a twelve-mebibyte file is rejected on size, and a
two-mebibyte zip archive is rejected on type. -/
theorem file_validation_default_config_witness :
    validateFile ⟨12582912, "image/png", "big.png"⟩ defaultFileConfig =
      ⟨false, "File size must not exceed 10MB"⟩ ∧
    validateFile ⟨2097152, "application/zip", "a.zip"⟩ defaultFileConfig =
      ⟨false, "File type not allowed"⟩ :=
  ⟨((file_validation_default_config ⟨12582912, "image/png", "big.png"⟩
      ⟨2097152, "application/zip", "a.zip"⟩).1 (by decide)).1,
   (file_validation_default_config ⟨12582912, "image/png", "big.png"⟩
      ⟨2097152, "application/zip", "a.zip"⟩).2.1 (by decide) (by decide)⟩

end MusicConnectz

namespace MusicConnectz

/-- Splitting a list free of the separator yields one piece. -/
theorem splitCharList_no_sep (sep : Char) (l : List Char)
    (h : l.contains sep = false) :
    splitCharList sep l = [l] := by
  induction l with
  | nil => rfl
  | cons c r ih =>
    simp only [List.contains_cons, Bool.or_eq_false_iff, beq_eq_false_iff_ne] at h
    obtain ⟨hc, hr⟩ := h
    have hr2 : r.contains sep = false := by
      simpa [List.contains_cons] using hr
    rw [splitCharList]
    simp only [ih hr2]
    simp [Ne.symm hc]

/-- Splitting a list that starts with a separator-free prefix, the
separator, and a remainder peels off the prefix as the first piece. -/
theorem splitCharList_prefix (sep : Char) (pre rest : List Char)
    (h : pre.contains sep = false) :
    splitCharList sep (pre ++ sep :: rest) = pre :: splitCharList sep rest := by
  induction pre with
  | nil =>
    simp [splitCharList]
  | cons c p ih =>
    simp only [List.contains_cons, Bool.or_eq_false_iff, beq_eq_false_iff_ne] at h
    obtain ⟨hc, hp⟩ := h
    have hp2 : p.contains sep = false := by
      simpa [List.contains_cons] using hp
    rw [List.cons_append, splitCharList]
    simp only [ih hp2]
    simp [Ne.symm hc]

/-- Rebuilding a string from its character data is the identity. -/
theorem asString_data (s : String) : s.data.asString = s := rfl

/-- Containment distributes over list append. -/
theorem contains_append_eq (a : Char) (l₁ l₂ : List Char) :
    (l₁ ++ l₂).contains a = (l₁.contains a || l₂.contains a) := by
  induction l₁ with
  | nil => simp
  | cons c r ih =>
    simp [List.contains_cons, ih, Bool.or_assoc]

/-- Claim C8: through the chain, the match validator compares the trimmed
evaluated value against the raw, untrimmed current value of the target
field: for a target identifier free of the two separator characters and
bound to the raw value t, the field passes exactly when the trim of the
evaluated raw value equals t. A target value differing from the trimmed
value only by surrounding whitespace therefore fails. -/
theorem match_compares_trimmed_against_raw_target (env : JsEnv)
    (raw tid t : String)
    (h1 : tid.data.contains ':' = false)
    (h2 : tid.data.contains '|' = false)
    (hdom : env.dom tid = some t) :
    (validateField env ("match:" ++ tid) raw).1 = true ↔ jsTrim raw = t := by
  have hdata : ("match:" ++ tid).data = "match".data ++ ':' :: tid.data := by
    rw [String.data_append]
    rfl
  have hm : (("match:" ++ tid).data).contains '|' = false := by
    rw [hdata, contains_append_eq]
    simp only [List.contains_cons, h2]
    decide
  have hsplit1 : jsSplit '|' ("match:" ++ tid) = ["match:" ++ tid] := by
    rw [jsSplit, splitCharList_no_sep '|' _ hm]
    simp only [List.map_cons, List.map_nil, asString_data]
  have hsplit2 : jsSplit ':' ("match:" ++ tid) = ["match", tid] := by
    rw [jsSplit, hdata, splitCharList_prefix ':' "match".data tid.data (by decide),
      splitCharList_no_sep ':' tid.data h1]
    simp only [List.map_cons, List.map_nil, asString_data]
    rfl
  have hname : ruleName ("match:" ++ tid) = "match" := by
    rw [ruleName, hsplit2]
    rfl
  have hparams : ruleParams ("match:" ++ tid) = [tid] := by
    rw [ruleParams, hsplit2]
    rfl
  rw [validateField, hsplit1, evalRules, hname, hparams]
  rw [show applyValidator env "match" (jsTrim raw) [tid] =
      some (validateMatch env (jsTrim raw) (some (JsArg.str tid))) from rfl]
  rw [validateMatch]
  simp only [argStr, jsArgString, hdom]
  by_cases heq : jsTrim raw = t
  · simp [heq, evalRules]
  · simp [heq]

/-- Witness for C8: with the target field pw holding abc, the evaluated
raw value with surrounding spaces passes, because its trim equals the
target value exactly. -/
theorem match_compares_trimmed_against_raw_target_witness :
    (validateField (envWith "pw" "abc") ("match:" ++ "pw") " abc ").1 = true :=
  (match_compares_trimmed_against_raw_target (envWith "pw" "abc")
    " abc " "pw" "abc" (by decide) (by decide) (by decide)).mpr (by decide)

end MusicConnectz
